import Mathlib

/-!
Verification of the job-autofill DOM-automation helpers.

The JavaScript source is shallowly embedded: a document is a list of
elements in document order; `querySelector` is the first match of a
predicate; side effects (value mutation, dispatched events, console
warnings) are returned explicitly.  Time-based code (the polling waiter)
is modelled over discrete milliseconds with ticks every 100 ms, the
idealisation of `setInterval(fn, 100)`.
-/

/-- JavaScript `String.prototype.toLowerCase()`, modelled as per-character
ASCII case folding over the string's character data. -/
def foldCase (s : String) : String :=
  String.mk (s.data.map Char.toLower)

/-- JavaScript `String.prototype.trim()`: drop whitespace characters from
both ends of the string. -/
def trimEnds (s : String) : String :=
  String.mk (((s.data.dropWhile Char.isWhitespace).reverse.dropWhile
    Char.isWhitespace).reverse)

/-- The normalisation `s.trim().toLowerCase()` that the matcher applies to
option texts, labels and aliases. -/
def normalizeText (s : String) : String :=
  foldCase (trimEnds s)

/-- A DOM element, flattened to the attributes the helpers read or write:
tag name, `name` attribute, `value`, `checked`, `role` attribute and text
content. -/
structure Element where
  tag : String
  name : String
  value : String
  checked : Bool
  role : String
  textContent : String
  deriving Repr, DecidableEq

/-- The observable outcome of a setter call: the document afterwards, the
indices that received `focus()`, the dispatched events as
(target index, event type) pairs in dispatch order, and the console
warning / log lines. -/
structure DomEffect where
  doc : List Element
  focused : List Nat
  events : List (Nat × String)
  warnings : List String
  logs : List String
  deriving Repr, DecidableEq

/-- The effect of a call that touches nothing: document unchanged, no
focus, no events, no diagnostics. -/
def noEffect (doc : List Element) : DomEffect :=
  { doc := doc, focused := [], events := [], warnings := [], logs := [] }

/-- Model of `container.querySelector(sel)`: the first element satisfying the
selector, together with its index in document order (the index is kept so
that dispatched events can name their target). -/
def findWithIdx (sel : Element → Bool) : List Element → Option (Nat × Element)
  | [] => none
  | e :: es =>
    if sel e then some (0, e)
    else (findWithIdx sel es).map (fun p => (p.1 + 1, p.2))

/-- Replace the element at index `i` by `f` of it; out-of-range indices
leave the list unchanged. -/
def modifyAt (f : Element → Element) : List Element → Nat → List Element
  | [], _ => []
  | e :: es, 0 => f e :: es
  | e :: es, n + 1 => e :: modifyAt f es n

/-- Semantics of the CSS selector string `input[name="N"]` that the
by-name entry points build with a template literal: tag `input` and a
`name` attribute equal to `N`. -/
def inputNameSel (n : String) : Element → Bool :=
  fun e => e.tag == "input" && e.name == n

/-- Model of `window.fillInputBySelector` (src/utils.js:7-17): find the input, focus
it, set its value, dispatch one `input` and one `change` event; if absent,
warn and do nothing. -/
def fillInputBySelector (sel : Element → Bool) (value : String)
    (doc : List Element) : DomEffect :=
  match findWithIdx sel doc with
  | some (i, _) =>
    { doc := modifyAt (fun e => { e with value := value }) doc i,
      focused := [i],
      events := [(i, "input"), (i, "change")],
      warnings := [], logs := [] }
  | none =>
    { doc := doc, focused := [], events := [],
      warnings := ["Input not found:"], logs := [] }

/-- Model of `window.fillInputByName` (src/utils.js:24-26): delegates to
`fillInputBySelector` with the derived selector `input[name="..."]`. -/
def fillInputByName (name value : String) (doc : List Element) : DomEffect :=
  fillInputBySelector (inputNameSel name) value doc

/-- Model of `window.setCheckboxBySelector` (src/unnamed/part_001:214-224): click the
checkbox only when its `checked` state differs from the requested one.  A
native click on a checkbox toggles `checked`, which the model applies to
the document. -/
def setCheckboxBySelector (sel : Element → Bool) (want : Bool)
    (doc : List Element) : DomEffect :=
  match findWithIdx sel doc with
  | some (i, el) =>
    if el.checked != want then
      { doc := modifyAt (fun e => { e with checked := !e.checked }) doc i,
        focused := [],
        events := [(i, "click")],
        warnings := [], logs := ["Checkbox clicked programmatically."] }
    else noEffect doc
  | none =>
    { doc := doc, focused := [], events := [],
      warnings := ["Checkbox not found:"], logs := [] }

/-- Model of `window.setCheckboxByName` (src/unnamed/part_001:231-233): delegates to
`setCheckboxBySelector` with the derived selector `input[name="..."]`. -/
def setCheckboxByName (name : String) (want : Bool)
    (doc : List Element) : DomEffect :=
  setCheckboxBySelector (inputNameSel name) want doc

/-- Model of `window.dateSetValue` (src/utils.js:99-109): guard on a missing element
and on a missing prototype-level native value setter, then focus, set the
value through the native setter and dispatch `input` and `change`.  The
element argument is modelled as an optional index into the document, and
the availability of the prototype descriptor as a boolean of the
environment. -/
def dateSetValue (el? : Option Nat) (value : String)
    (hasNativeSetter : Bool) (doc : List Element) : DomEffect :=
  match el? with
  | none => noEffect doc
  | some i =>
    if !hasNativeSetter then noEffect doc
    else
      { doc := modifyAt (fun e => { e with value := value }) doc i,
        focused := [i],
        events := [(i, "input"), (i, "change")],
        warnings := [], logs := [] }

/-- Model of `getActiveDropdownContainer` (src/unnamed/part_001:190-196): all
elements with `role="listbox"`; `null` when there are none, otherwise the
one at index `length - 1` of that list. -/
def getActiveDropdownContainer (doc : List Element) : Option Element :=
  let listboxes := doc.filter (fun e => e.role == "listbox")
  if listboxes.length == 0 then none
  else listboxes.get? (listboxes.length - 1)

/-- The alias fallback loop of `findMatchingOption`
(src/unnamed/part_001:160-168): for each alias in order, the first option
whose normalised text equals the normalised alias; the first alias with
any match wins. -/
def findAliasMatch (options : List Element) : List String → Option Element
  | [] => none
  | a :: rest =>
    match options.find? (fun opt => normalizeText opt.textContent == normalizeText a) with
    | some m => some m
    | none => findAliasMatch options rest

/-- Model of `findMatchingOption` (src/unnamed/part_001:153-171): the first option
whose trimmed, lower-cased text equals the trimmed, lower-cased primary
label, else the alias fallback loop, else `none`. -/
def findMatchingOption (options : List Element) (labelToMatch : String)
    (aliases : List String) : Option Element :=
  match options.find? (fun opt => normalizeText opt.textContent == normalizeText labelToMatch) with
  | some m => some m
  | none => findAliasMatch options aliases

/-- The normalised-text match relation used by the matcher: option text and
label agree after trimming and case folding. -/
def optMatches (l : String) (e : Element) : Prop :=
  normalizeText e.textContent = normalizeText l

instance (l : String) (e : Element) : Decidable (optMatches l e) := by
  unfold optMatches; infer_instance

/-- Predicate: `m` is the first element of `options` matching `l`: it occurs at an
index before which no element matches. -/
def FirstSuch (options : List Element) (l : String) (m : Element) : Prop :=
  ∃ i, options.get? i = some m ∧ optMatches l m ∧
    ∀ e ∈ options.take i, ¬ optMatches l e

/-- A concrete document element used to exercise the locator on concrete
inputs. -/
def mkRole (r : String) : Element :=
  { tag := "div", name := "", value := "", checked := false,
    role := r, textContent := "" }

/-- A concrete option element used to exercise the theorems on concrete
inputs. -/
def mkOption (t : String) : Element :=
  { tag := "li", name := "", value := "", checked := false,
    role := "option", textContent := t }

/-- A concrete text input used to exercise the setters on concrete
inputs. -/
def mkInput (n v : String) : Element :=
  { tag := "input", name := n, value := v, checked := false,
    role := "", textContent := "" }

/-- A concrete checkbox used to exercise the setters on concrete
inputs. -/
def mkCheckbox (n : String) (c : Bool) : Element :=
  { tag := "input", name := n, value := "", checked := c,
    role := "", textContent := "" }

/-- The polling loop of `window.waitForElement` (src/utils.js:136-150),
over discrete time: `query t` is what `document.querySelector` returns at
`t` milliseconds after the call; ticks run at 100, 200, 300, …  At each
tick the element is looked up; if present the promise resolves with it,
otherwise if more than `timeout` milliseconds have elapsed the promise
rejects with a timeout error (modelled as carrying the rejection time). -/
def pollFrom (query : Nat → Option Element) (timeout t : Nat) :
    Except Nat (Nat × Element) :=
  match query t with
  | some el => .ok (t, el)
  | none =>
    if h : timeout < t then .error t
    else pollFrom query timeout (t + 100)
termination_by timeout + 101 - t
decreasing_by omega

/-- Model of `window.waitForElement`: start polling at the first 100 ms tick with
the default 5000 ms timeout available. -/
def waitForElement (query : Nat → Option Element) (timeout : Nat := 5000) :
    Except Nat (Nat × Element) :=
  pollFrom query timeout 100

/-- The synthetic interactions `selectByTypingFromDropdown` performs for
one candidate: set the trigger's value, dispatch `input`, then the Enter
`keydown`/`keyup` pair committing the suggestion. -/
inductive TypeEv where
  | valueSet (s : String)
  | inputEvent
  | keydownEnter
  | keyupEnter
  deriving Repr, DecidableEq

/-- The event sequence typed-and-committed for candidate `c`
(src/unnamed/part_001:118-127). -/
def candEvents (c : String) : List TypeEv :=
  [.valueSet c, .inputEvent, .keydownEnter, .keyupEnter]

/-- Model of `getCurrentPills` (src/unnamed/part_001:180-183) applied to the raw
pill label texts the host currently shows: each label trimmed and
lower-cased. -/
def getCurrentPills (pillTexts : List String) : List String :=
  pillTexts.map normalizeText

/-- The candidate loop of `selectByTypingFromDropdown`
(src/unnamed/part_001:111-139).  The host page is abstracted by a state
type `σ`, `pillsOf s` giving the raw pill texts shown in state `s`, and
`step s c` the state after the candidate `c` has been typed, committed
with Enter and both settle delays have elapsed.  Per candidate: read the
pills fresh; with multi-select disabled, break when the lower-cased
candidate is already among them; otherwise type and commit, re-read the
pills, and either record success (breaking when single-select) or record
the candidate as unaccepted and continue. -/
def typeLoop {σ : Type} (allowMultiple : Bool) (step : σ → String → σ)
    (pillsOf : σ → List String) :
    σ → List String → σ × List TypeEv × List String
  | s, [] => (s, [], [])
  | s, c :: rest =>
    if !allowMultiple && (getCurrentPills (pillsOf s)).contains (foldCase c) then
      (s, [], [])
    else
      let s' := step s c
      if (getCurrentPills (pillsOf s')).contains (foldCase c) then
        if !allowMultiple then (s', candEvents c, [])
        else
          let r := typeLoop allowMultiple step pillsOf s' rest
          (r.1, candEvents c ++ r.2.1, r.2.2)
      else
        let r := typeLoop allowMultiple step pillsOf s' rest
        (r.1, candEvents c ++ r.2.1, c :: r.2.2)

/-- The `labelToMatch` argument: a plain string or an array of labels
(src/unnamed/part_001:107 normalises both into an array). -/
inductive LabelSpec where
  | single (s : String)
  | multiple (ls : List String)
  deriving Repr, DecidableEq

/-- Model of `Array.isArray(labelToMatch) ? labelToMatch : [labelToMatch]`. -/
def labelArray : LabelSpec → List String
  | .single s => [s]
  | .multiple ls => ls

/-- Observable outcome of one `selectByTypingFromDropdown` call. -/
structure TypeSelectOutcome where
  triggerClicked : Bool
  events : List TypeEv
  unaccepted : List String
  warnedTriggerMissing : Bool
  warnedUnaccepted : Bool
  deriving Repr, DecidableEq

/-- Model of `window.selectByTypingFromDropdown` (src/unnamed/part_001:92-144):
missing trigger warns and returns; otherwise the trigger is clicked, the
candidate list is the label array followed by the aliases, the candidate
loop runs, and any unaccepted candidates are reported collectively by a
single warning after the loop.  The result is an `Except` because the
async function's promise could in principle reject; no branch of the
source throws. -/
def selectByTypingFromDropdown {σ : Type} (step : σ → String → σ)
    (pillsOf : σ → List String) (triggerFound : Bool)
    (labelToMatch : LabelSpec) (allowMultiple : Bool)
    (aliases : List String) (s0 : σ) :
    Except String (σ × TypeSelectOutcome) :=
  if !triggerFound then
    .ok (s0,
      { triggerClicked := false, events := [], unaccepted := [],
        warnedTriggerMissing := true, warnedUnaccepted := false })
  else
    let candidates := labelArray labelToMatch ++ aliases
    let r := typeLoop allowMultiple step pillsOf s0 candidates
    .ok (r.1,
      { triggerClicked := true, events := r.2.1, unaccepted := r.2.2,
        warnedTriggerMissing := false, warnedUnaccepted := !r.2.2.isEmpty })

/-- Spec-side description (§4.4 of the spec, multi-select branch): every
candidate is typed and committed in order, so the emitted events are the
concatenation of each candidate's type-and-commit sequence. -/
def specEventsFor : List String → List TypeEv
  | [] => []
  | c :: rest => candEvents c ++ specEventsFor rest

/-- Spec-side description (§4.4 steps 3e-3f/4): with multi-select enabled
every candidate is committed, and the unaccepted ones, in order, are
exactly those whose lower-cased text is absent from the freshly read,
normalised chip list right after their own commit. -/
def specMultiSelectUnaccepted {σ : Type} (step : σ → String → σ)
    (pillsOf : σ → List String) : σ → List String → List String
  | _, [] => []
  | s, c :: rest =>
    let s' := step s c
    if (getCurrentPills (pillsOf s')).contains (foldCase c) then
      specMultiSelectUnaccepted step pillsOf s' rest
    else
      c :: specMultiSelectUnaccepted step pillsOf s' rest

/-- Observable outcome of one `selectFromDropdownOption` call: which
option was clicked, if any, and the warnings printed. -/
structure SelectOutcome where
  clicked : Option Element
  warnings : List String
  deriving Repr, DecidableEq

/-- Model of `window.selectFromDropdownOption` (src/unnamed/part_001:36-77):
missing button warns and returns; otherwise the button is clicked and the
document evolves per `docAt` (milliseconds after the click); the options'
appearance is awaited with the polling waiter, whose rejection is caught
by the `try`/`catch` and turned into a warning and an early return; then
the active listbox is resolved on the current document, the options are
re-queried scoped to it (`childrenOf` gives a container's descendants, as
`querySelectorAll` scoped to the container), and the matcher decides the
click.  Every branch completes the async function's promise in a
successful state. -/
def selectFromDropdownOption (doc0 : List Element)
    (docAt : Nat → List Element) (childrenOf : Element → List Element)
    (buttonSel optionSel : Element → Bool)
    (label : String) (aliases : List String) : Except String SelectOutcome :=
  match findWithIdx buttonSel doc0 with
  | none => .ok { clicked := none, warnings := ["Dropdown button not found:"] }
  | some _ =>
    match waitForElement (fun t => (docAt t).find? optionSel) 5000 with
    | .error _ =>
      .ok { clicked := none,
            warnings := ["Timed out waiting for dropdown options:"] }
    | .ok r =>
      match getActiveDropdownContainer (docAt r.1) with
      | none =>
        .ok { clicked := none,
              warnings := ["No active dropdown container found."] }
      | some active =>
        match findMatchingOption ((childrenOf active).filter optionSel)
            label aliases with
        | some m => .ok { clicked := some m, warnings := [] }
        | none =>
          .ok { clicked := none, warnings := ["Dropdown option not found:"] }

-- Helper: characterisation of `List.find?` success as a first-match fact.
theorem find?_first {p : Element → Bool} :
    ∀ {l : List Element} {x}, l.find? p = some x →
      ∃ i, l.get? i = some x ∧ p x = true ∧ ∀ y ∈ l.take i, p y = false := by
  intro l
  induction l with
  | nil => intro x h; simp [List.find?] at h
  | cons a t ih =>
    intro x h
    by_cases hpa : p a
    · rw [List.find?_cons_of_pos _ hpa] at h
      injection h with h
      subst h
      exact ⟨0, rfl, hpa, by simp⟩
    · rw [List.find?_cons_of_neg _ hpa] at h
      obtain ⟨i, hg, hpx, htake⟩ := ih h
      refine ⟨i + 1, by simpa using hg, hpx, ?_⟩
      intro y hy
      rw [List.take_succ_cons] at hy
      rcases List.mem_cons.mp hy with h1 | h1
      · simpa [h1] using hpa
      · exact htake y h1

-- Helper: the Bool test used in the source agrees with `optMatches`.
theorem optMatches_beq (l : String) (e : Element) :
    (normalizeText e.textContent == normalizeText l) = true ↔ optMatches l e := by
  simp [optMatches]

-- Helper: a false Bool comparison refutes the match relation.
theorem not_optMatches_of_false {l : String} {e : Element}
    (h : (normalizeText e.textContent == normalizeText l) = false) :
    ¬ optMatches l e := by
  intro hc
  rw [← optMatches_beq] at hc
  rw [hc] at h
  exact absurd h (by decide)

-- Helper: success of the alias fallback loop, characterised.
theorem findAliasMatch_some {options : List Element} :
    ∀ {aliases : List String} {m},
      findAliasMatch options aliases = some m →
      ∃ k a, aliases.get? k = some a ∧
        (∃ i, options.get? i = some m ∧ optMatches a m ∧
          ∀ e ∈ options.take i, ¬ optMatches a e) ∧
        ∀ a' ∈ aliases.take k, ∀ e ∈ options, ¬ optMatches a' e := by
  intro aliases
  induction aliases with
  | nil => intro m h; simp [findAliasMatch] at h
  | cons a rest ih =>
    intro m h
    rw [findAliasMatch] at h
    cases hf : options.find? (fun opt => normalizeText opt.textContent == normalizeText a) with
    | some m' =>
      rw [hf] at h
      injection h with h
      subst h
      obtain ⟨i, hg, hp, ht⟩ := find?_first hf
      refine ⟨0, a, rfl, ⟨i, hg, (optMatches_beq a _).mp hp,
        fun e he => not_optMatches_of_false (ht e he)⟩, by simp⟩
    | none =>
      rw [hf] at h
      obtain ⟨k, a', hga, hfs, hpre⟩ := ih h
      refine ⟨k + 1, a', by simpa using hga, hfs, ?_⟩
      intro a'' ha'' e he
      rw [List.take_succ_cons] at ha''
      rcases List.mem_cons.mp ha'' with h1 | h1
      · subst h1
        intro hc
        exact (List.find?_eq_none.mp hf e he) ((optMatches_beq _ _).mpr hc)
      · exact hpre a'' h1 e he

-- Helper: failure of the alias fallback loop, characterised.
theorem findAliasMatch_none {options : List Element} :
    ∀ {aliases : List String},
      findAliasMatch options aliases = none ↔
        ∀ a ∈ aliases, ∀ e ∈ options, ¬ optMatches a e := by
  intro aliases
  induction aliases with
  | nil => simp [findAliasMatch]
  | cons a rest ih =>
    rw [findAliasMatch]
    cases hf : options.find? (fun opt => normalizeText opt.textContent == normalizeText a) with
    | some m' =>
      constructor
      · intro h; exact absurd h (by simp)
      · intro hall
        have hp0 := List.find?_some hf
        have hp : (normalizeText m'.textContent == normalizeText a) = true := hp0
        exact absurd ((optMatches_beq _ _).mp hp)
          (hall a (by simp) m' (List.mem_of_find?_eq_some hf))
    | none =>
      rw [ih]
      constructor
      · intro hrest a' ha' e he
        rcases List.mem_cons.mp ha' with h1 | h1
        · subst h1
          intro hc
          exact (List.find?_eq_none.mp hf e he) ((optMatches_beq _ _).mpr hc)
        · exact hrest a' h1 e he
      · intro hall a' ha' e he
        exact hall a' (List.mem_cons_of_mem _ ha') e he

/-- Claim C1: `findMatchingOption` returns the first option (in list order)
whose trimmed, case-folded text equals the trimmed, case-folded primary
label; failing that, the first option matching the first alias (in the
given alias order) that matches any option; and `none` when neither the
label nor any alias matches — a valid negative result, not an error. -/
theorem C1_option_matcher (options : List Element) (label : String)
    (aliases : List String) :
    (∀ m, findMatchingOption options label aliases = some m →
      FirstSuch options label m ∨
        ((∀ e ∈ options, ¬ optMatches label e) ∧
          ∃ k a, aliases.get? k = some a ∧ FirstSuch options a m ∧
            ∀ a' ∈ aliases.take k, ∀ e ∈ options, ¬ optMatches a' e)) ∧
    (findMatchingOption options label aliases = none ↔
      ∀ e ∈ options, ¬ optMatches label e ∧ ∀ a ∈ aliases, ¬ optMatches a e) := by
  constructor
  · intro m hm
    rw [findMatchingOption] at hm
    cases h : options.find? (fun opt => normalizeText opt.textContent == normalizeText label) with
    | some m' =>
      rw [h] at hm
      injection hm with hm
      subst hm
      left
      obtain ⟨i, hg, hp, ht⟩ := find?_first h
      exact ⟨i, hg, (optMatches_beq _ _).mp hp,
        fun e he => not_optMatches_of_false (ht e he)⟩
    | none =>
      rw [h] at hm
      right
      refine ⟨?_, findAliasMatch_some hm⟩
      intro e he hc
      exact (List.find?_eq_none.mp h e he) ((optMatches_beq _ _).mpr hc)
  · rw [findMatchingOption]
    cases h : options.find? (fun opt => normalizeText opt.textContent == normalizeText label) with
    | some m' =>
      constructor
      · intro hc; exact absurd hc (by simp)
      · intro hall
        have hp0 := List.find?_some h
        have hp : (normalizeText m'.textContent == normalizeText label) = true := hp0
        exact absurd ((optMatches_beq _ _).mp hp)
          (hall m' (List.mem_of_find?_eq_some h)).1
    | none =>
      rw [findAliasMatch_none]
      constructor
      · intro hfa e he
        refine ⟨?_, fun a ha => hfa a ha e he⟩
        intro hc
        exact (List.find?_eq_none.mp h e he) ((optMatches_beq _ _).mpr hc)
      · intro hall a ha e he
        exact (hall e he).2 a ha

-- Helper: the last element of a filtered list decomposes the original
-- list with no later element satisfying the predicate.
theorem filter_getLast?_decomp {p : Element → Bool} :
    ∀ {l : List Element} {x},
      (l.filter p).getLast? = some x →
      p x = true ∧ ∃ pre post, l = pre ++ x :: post ∧ ∀ y ∈ post, p y = false := by
  intro l
  induction l with
  | nil => intro x h; simp at h
  | cons a t ih =>
    intro x h
    rw [List.filter_cons] at h
    by_cases hpa : p a
    · rw [if_pos hpa] at h
      cases hft : t.filter p with
      | nil =>
        rw [hft, List.getLast?_singleton] at h
        injection h with h
        subst h
        exact ⟨hpa, [], t, rfl, fun y hy =>
          Bool.of_not_eq_true (List.filter_eq_nil_iff.mp hft y hy)⟩
      | cons b s =>
        rw [hft, List.getLast?_cons_cons, ← hft] at h
        obtain ⟨hpx, pre, post, heq, hpost⟩ := ih h
        exact ⟨hpx, a :: pre, post, by rw [heq, List.cons_append], hpost⟩
    · rw [if_neg hpa] at h
      obtain ⟨hpx, pre, post, heq, hpost⟩ := ih h
      exact ⟨hpx, a :: pre, post, by rw [heq, List.cons_append], hpost⟩

-- Helper: the source's `listboxes[listboxes.length - 1]` guarded by the
-- emptiness check is exactly the last element of the filtered list.
theorem getActive_eq_getLast? (doc : List Element) :
    getActiveDropdownContainer doc =
      (doc.filter (fun e => e.role == "listbox")).getLast? := by
  rw [getActiveDropdownContainer, List.getLast?_eq_getElem?]
  cases doc.filter (fun e => e.role == "listbox") with
  | nil => simp
  | cons b s => simp [List.get?_eq_getElem?]

-- Helper: a nonempty list has a last element.
theorem getLast?_cons_ne_none (b : Element) :
    ∀ (s : List Element), (b :: s).getLast? ≠ none := by
  intro s
  induction s generalizing b with
  | nil => simp
  | cons c t ih => rw [List.getLast?_cons_cons]; exact ih c

/-- Claim C5: `getActiveDropdownContainer` returns `none` exactly when the
document contains no element with `role="listbox"`, and otherwise returns
the last such element in document order: an element with that role that
decomposes the document so that no element after it carries the role. -/
theorem C5_active_surface_locator (doc : List Element) :
    (getActiveDropdownContainer doc = none ↔
      ∀ e ∈ doc, ¬ e.role = "listbox") ∧
    (∀ e, getActiveDropdownContainer doc = some e →
      e.role = "listbox" ∧
        ∃ pre post, doc = pre ++ e :: post ∧
          ∀ e' ∈ post, ¬ e'.role = "listbox") := by
  constructor
  · rw [getActive_eq_getLast?]
    cases hf : doc.filter (fun e => e.role == "listbox") with
    | nil =>
      simp only [List.getLast?_nil]
      constructor
      · intro _ e he hrole
        have hmem : e ∈ doc.filter (fun x => x.role == "listbox") :=
          List.mem_filter.mpr ⟨he, by simp [hrole]⟩
        rw [hf] at hmem
        simp at hmem
      · intro _; trivial
    | cons b s =>
      constructor
      · intro hc
        exact absurd hc (getLast?_cons_ne_none b s)
      · intro hall
        exfalso
        have hb : b ∈ doc.filter (fun e => e.role == "listbox") := by
          rw [hf]; exact List.mem_cons_self b s
        have := List.of_mem_filter hb
        exact hall b (List.mem_of_mem_filter hb) (by simpa using this)
  · intro e he
    rw [getActive_eq_getLast?] at he
    obtain ⟨hpx, pre, post, heq, hpost⟩ := filter_getLast?_decomp he
    refine ⟨by simpa using hpx, pre, post, heq, ?_⟩
    intro e' he'
    have := hpost e' he'
    simpa using this

-- Helper: reading back the modified index applies the modification.
theorem modifyAt_get?_self (f : Element → Element) :
    ∀ (l : List Element) (i : Nat),
      (modifyAt f l i).get? i = (l.get? i).map f := by
  intro l
  induction l with
  | nil => intro i; cases i <;> simp [modifyAt]
  | cons e es ih =>
    intro i
    cases i with
    | zero => simp [modifyAt]
    | succ n => simpa [modifyAt] using ih n

-- Helper: all other indices are untouched by the modification.
theorem modifyAt_get?_ne (f : Element → Element) :
    ∀ (l : List Element) (i j : Nat), j ≠ i →
      (modifyAt f l i).get? j = l.get? j := by
  intro l
  induction l with
  | nil => intro i j _; cases i <;> simp [modifyAt]
  | cons e es ih =>
    intro i j hne
    cases i with
    | zero =>
      cases j with
      | zero => exact absurd rfl hne
      | succ m => simp [modifyAt]
    | succ n =>
      cases j with
      | zero => simp [modifyAt]
      | succ m =>
        have : m ≠ n := fun hc => hne (by rw [hc])
        simpa [modifyAt] using ih n m this

-- Helper: `findWithIdx` reports a genuine index and a selected element.
theorem findWithIdx_get? (sel : Element → Bool) :
    ∀ (l : List Element) (i : Nat) (el : Element),
      findWithIdx sel l = some (i, el) →
      l.get? i = some el ∧ sel el = true := by
  intro l
  induction l with
  | nil => intro i el h; simp [findWithIdx] at h
  | cons e es ih =>
    intro i el h
    rw [findWithIdx] at h
    by_cases hse : sel e
    · rw [if_pos hse] at h
      injection h with h
      simp only [Prod.mk.injEq] at h
      obtain ⟨h1, h2⟩ := h
      subst h1
      subst h2
      exact ⟨rfl, hse⟩
    · rw [if_neg hse] at h
      cases hr : findWithIdx sel es with
      | none => rw [hr] at h; simp at h
      | some p =>
        cases p with
        | mk i' el' =>
          rw [hr] at h
          injection h with h
          simp only [Prod.mk.injEq] at h
          obtain ⟨h1, h2⟩ := h
          subst h1
          subst h2
          obtain ⟨ha, hb⟩ := ih i' el' hr
          exact ⟨by simpa using ha, hb⟩

/-- Witness for C5: in a document with two listboxes, the second one is
returned and everything after it is listbox-free; moreover the none-case
iff is exercised on a listbox-free document. -/
theorem C5_active_surface_locator_witness :
    ((mkRole "listbox").role = "listbox" ∧
      ∃ pre post,
        [mkRole "", mkRole "listbox", mkRole "listbox", mkRole "dialog"] =
          pre ++ mkRole "listbox" :: post ∧
        ∀ e' ∈ post, ¬ e'.role = "listbox") ∧
    getActiveDropdownContainer [mkRole "", mkRole "dialog"] = none :=
  ⟨(C5_active_surface_locator
      [mkRole "", mkRole "listbox", mkRole "listbox", mkRole "dialog"]).2
      (mkRole "listbox") (by decide),
   (C5_active_surface_locator [mkRole "", mkRole "dialog"]).1.mpr
      (by decide)⟩

/-- Claim C6: on a document containing an input with `name="email"`,
`fillInputByName "email" "a@b.com"` sets that input's value to
`"a@b.com"` — the first matching input is updated, all other elements are
untouched — and dispatches exactly one `input` and one `change` event on
it, in that order, with no warning; on a document with no such input it
logs the not-found warning, performs no DOM mutation and dispatches no
events. -/
theorem C6_fill_email (doc : List Element) :
    (∀ i el, findWithIdx (inputNameSel "email") doc = some (i, el) →
      ∃ out, fillInputByName "email" "a@b.com" doc = out ∧
        out.doc.get? i = some { el with value := "a@b.com" } ∧
        (∀ j, j ≠ i → out.doc.get? j = doc.get? j) ∧
        out.events = [(i, "input"), (i, "change")] ∧
        out.warnings = []) ∧
    (findWithIdx (inputNameSel "email") doc = none →
      fillInputByName "email" "a@b.com" doc =
        { doc := doc, focused := [], events := [],
          warnings := ["Input not found:"], logs := [] }) := by
  constructor
  · intro i el h
    have hout : fillInputByName "email" "a@b.com" doc =
        { doc := modifyAt (fun e => { e with value := "a@b.com" }) doc i,
          focused := [i],
          events := [(i, "input"), (i, "change")],
          warnings := [], logs := [] } := by
      rw [fillInputByName, fillInputBySelector, h]
    refine ⟨_, hout, ?_, ?_, rfl, rfl⟩
    · have hgi : doc.get? i = some el := (findWithIdx_get? _ doc i el h).1
      rw [modifyAt_get?_self, hgi]
      rfl
    · intro j hj
      exact modifyAt_get?_ne _ doc i j hj
  · intro h
    rw [fillInputByName, fillInputBySelector, h]

/-- Witness for C6: a concrete two-element document with an email input in
second position is filled at index 1 only, with one input and one change
event; the empty document produces the warning effect. -/
theorem C6_fill_email_witness :
    (∃ out,
      fillInputByName "email" "a@b.com" [mkRole "dialog", mkInput "email" ""] = out ∧
      out.doc.get? 1 = some { mkInput "email" "" with value := "a@b.com" } ∧
      (∀ j, j ≠ 1 → out.doc.get? j =
        [mkRole "dialog", mkInput "email" ""].get? j) ∧
      out.events = [(1, "input"), (1, "change")] ∧
      out.warnings = []) ∧
    fillInputByName "email" "a@b.com" [] =
      { doc := [], focused := [], events := [],
        warnings := ["Input not found:"], logs := [] } :=
  ⟨(C6_fill_email [mkRole "dialog", mkInput "email" ""]).1 1
      (mkInput "email" "") (by decide),
   (C6_fill_email []).2 (by decide)⟩

/-- Claim C7: when the located checkbox's current `checked` state equals
the requested one, `setCheckboxBySelector` dispatches no click and leaves
the document unchanged; whenever it dispatches any event, the located
checkbox's state differed from the requested one and the dispatch is a
single click on it; and `setCheckboxByName` routes through
`setCheckboxBySelector` on the derived name selector. -/
theorem C7_checkbox_idempotent :
    (∀ sel (want : Bool) doc i el,
      findWithIdx sel doc = some (i, el) → el.checked = want →
      setCheckboxBySelector sel want doc = noEffect doc) ∧
    (∀ sel (want : Bool) doc,
      (setCheckboxBySelector sel want doc).events ≠ [] →
      ∃ i el, findWithIdx sel doc = some (i, el) ∧ ¬ el.checked = want ∧
        (setCheckboxBySelector sel want doc).events = [(i, "click")]) ∧
    (∀ name (want : Bool) doc,
      setCheckboxByName name want doc =
        setCheckboxBySelector (inputNameSel name) want doc) := by
  refine ⟨?_, ?_, fun _ _ _ => rfl⟩
  · intro sel want doc i el h hch
    simp [setCheckboxBySelector, h, hch]
  · intro sel want doc hne
    cases h : findWithIdx sel doc with
    | none =>
      rw [setCheckboxBySelector, h] at hne
      exact absurd rfl hne
    | some p =>
      cases p with
      | mk i el =>
        simp only [setCheckboxBySelector, h] at hne ⊢
        by_cases hch : el.checked = want
        · simp [hch, noEffect] at hne
        · have hb : (el.checked != want) = true := by
            simpa using hch
          rw [if_pos hb] at hne ⊢
          exact ⟨i, el, rfl, hch, rfl⟩

/-- Witness for C7: setting an already-checked box to `true` is a no-op,
while the click dispatched when requesting `false` on it certifies the
state difference; the by-name wrapper agrees definitionally. -/
theorem C7_checkbox_idempotent_witness :
    setCheckboxBySelector (inputNameSel "news") true [mkCheckbox "news" true] =
      noEffect [mkCheckbox "news" true] ∧
    (∃ i el,
      findWithIdx (inputNameSel "news") [mkCheckbox "news" true] = some (i, el) ∧
      ¬ el.checked = false ∧
      (setCheckboxBySelector (inputNameSel "news") false
        [mkCheckbox "news" true]).events = [(i, "click")]) ∧
    setCheckboxByName "news" true [mkCheckbox "news" true] =
      setCheckboxBySelector (inputNameSel "news") true [mkCheckbox "news" true] :=
  ⟨C7_checkbox_idempotent.1 (inputNameSel "news") true [mkCheckbox "news" true]
      0 (mkCheckbox "news" true) (by decide) rfl,
   C7_checkbox_idempotent.2.1 (inputNameSel "news") false [mkCheckbox "news" true]
      (by decide),
   C7_checkbox_idempotent.2.2 "news" true [mkCheckbox "news" true]⟩

/-- Claim C9: `dateSetValue` called with a null/undefined element returns
without mutating any element or dispatching any event, and likewise when
the element is present but no prototype-level native value setter can be
obtained.  (The embedding is a total function, so neither guard path can
throw.) -/
theorem C9_dateSetValue_guards (value : String) (hasNativeSetter : Bool)
    (doc : List Element) :
    dateSetValue none value hasNativeSetter doc =
      { doc := doc, focused := [], events := [], warnings := [], logs := [] } ∧
    (∀ i, dateSetValue (some i) value false doc =
      { doc := doc, focused := [], events := [], warnings := [], logs := [] }) := by
  constructor
  · rfl
  · intro i
    rfl

-- Helper: a rejection always happens strictly after the deadline, at a
-- tick where the selector was still unsatisfied.
theorem pollFrom_error_facts (query : Nat → Option Element) (timeout : Nat) :
    ∀ t T, pollFrom query timeout t = .error T →
      timeout < T ∧ query T = none := by
  have H : ∀ m t T, timeout + 101 - t = m →
      pollFrom query timeout t = .error T → timeout < T ∧ query T = none := by
    intro m
    induction m using Nat.strong_induction_on with
    | _ m ih =>
      intro t T hm h
      unfold pollFrom at h
      cases hq : query t with
      | some el => rw [hq] at h; exact absurd h (by simp)
      | none =>
        rw [hq] at h
        by_cases ht : timeout < t
        · rw [dif_pos ht] at h
          injection h with h
          subst h
          exact ⟨ht, hq⟩
        · rw [dif_neg ht] at h
          exact ih (timeout + 101 - (t + 100)) (by omega) (t + 100) T rfl h
  intro t T
  exact H (timeout + 101 - t) t T rfl

-- Helper: with the selector never satisfied, polling from a tick inside
-- the window rejects strictly after the deadline but within one interval.
theorem pollFrom_never_found (query : Nat → Option Element) (timeout : Nat)
    (hq : ∀ u, query u = none) :
    ∀ t, 0 < t → t ≤ timeout + 100 →
      ∃ T, pollFrom query timeout t = .error T ∧
        timeout < T ∧ T ≤ timeout + 100 := by
  have H : ∀ m t, timeout + 101 - t = m → 0 < t → t ≤ timeout + 100 →
      ∃ T, pollFrom query timeout t = .error T ∧
        timeout < T ∧ T ≤ timeout + 100 := by
    intro m
    induction m using Nat.strong_induction_on with
    | _ m ih =>
      intro t hm ht0 htle
      unfold pollFrom
      rw [hq t]
      by_cases ht : timeout < t
      · rw [dif_pos ht]
        exact ⟨t, rfl, ht, htle⟩
      · rw [dif_neg ht]
        exact ih (timeout + 101 - (t + 100)) (by omega) (t + 100) rfl
          (by omega) (by omega)
  intro t
  exact H (timeout + 101 - t) t rfl

-- Helper: with the selector first satisfied at delay D below the
-- deadline, polling from a tick at most one interval past D resolves with
-- the element in the window `[D, D + 100]`.
theorem pollFrom_first_at (query : Nat → Option Element) (timeout D : Nat)
    (el : Element) (hD : D < timeout)
    (hq : ∀ u, query u = if D ≤ u then some el else none) :
    ∀ t, 0 < t → t ≤ D + 100 →
      ∃ T, pollFrom query timeout t = .ok (T, el) ∧ D ≤ T ∧ T ≤ D + 100 := by
  have H : ∀ m t, timeout + 101 - t = m → 0 < t → t ≤ D + 100 →
      ∃ T, pollFrom query timeout t = .ok (T, el) ∧ D ≤ T ∧ T ≤ D + 100 := by
    intro m
    induction m using Nat.strong_induction_on with
    | _ m ih =>
      intro t hm ht0 htle
      unfold pollFrom
      by_cases hDt : D ≤ t
      · rw [hq t, if_pos hDt]
        exact ⟨t, rfl, hDt, htle⟩
      · rw [hq t, if_neg hDt]
        have ht : ¬ timeout < t := by omega
        rw [dif_neg ht]
        exact ih (timeout + 101 - (t + 100)) (by omega) (t + 100) rfl
          (by omega) (by omega)
  intro t
  exact H (timeout + 101 - t) t rfl

/-- Claim C4: for a selector never satisfied, the waiter rejects strictly
after the configured timeout and no later than the timeout plus one
100 ms polling interval, its promise completing in a rejected state
carrying the timeout error; any rejection, for any selector behaviour,
happens strictly after the timeout and at a tick where the selector was
still unsatisfied; and for a selector first satisfied at delay `D` below
the timeout, the waiter resolves with the matching element within
`[D, D + 100]`. -/
theorem C4_waiter_bounds (timeout : Nat) :
    (∀ query : Nat → Option Element, (∀ u, query u = none) →
      ∃ T, waitForElement query timeout = .error T ∧
        timeout < T ∧ T ≤ timeout + 100) ∧
    (∀ (query : Nat → Option Element) (T : Nat),
      waitForElement query timeout = .error T → timeout < T ∧ query T = none) ∧
    (∀ (query : Nat → Option Element) (D : Nat) (el : Element),
      D < timeout → (∀ u, query u = if D ≤ u then some el else none) →
      ∃ T, waitForElement query timeout = .ok (T, el) ∧
        D ≤ T ∧ T ≤ D + 100) := by
  refine ⟨?_, ?_, ?_⟩
  · intro query hq
    exact pollFrom_never_found query timeout hq 100 (by omega) (by omega)
  · intro query T h
    exact pollFrom_error_facts query timeout 100 T h
  · intro query D el hD hq
    exact pollFrom_first_at query timeout D el hD hq 100 (by omega) (by omega)

/-- Witness for C4: with a 250 ms timeout and a never-satisfied selector
the rejection lands in (250, 350]; with a 400 ms timeout and an element
first present at 150 ms the resolution lands in [150, 250]. -/
theorem C4_waiter_bounds_witness :
    (∃ T, waitForElement (fun _ => none) 250 = .error T ∧
      250 < T ∧ T ≤ 350) ∧
    (∃ T, waitForElement
        (fun u => if 150 ≤ u then some (mkOption "Ready") else none) 400 =
        .ok (T, mkOption "Ready") ∧ 150 ≤ T ∧ T ≤ 250) :=
  ⟨(C4_waiter_bounds 250).1 (fun _ => none) (fun _ => rfl),
   (C4_waiter_bounds 400).2.2
      (fun u => if 150 ≤ u then some (mkOption "Ready") else none)
      150 (mkOption "Ready") (by omega) (fun _ => rfl)⟩

-- Helper: with multi-select enabled the loop never breaks: it commits
-- every candidate, emits every type-and-commit sequence, and collects
-- exactly the spec-side unaccepted list.
theorem typeLoop_multi {σ : Type} (step : σ → String → σ)
    (pillsOf : σ → List String) :
    ∀ (cs : List String) (s : σ),
      typeLoop true step pillsOf s cs =
        (cs.foldl step s, specEventsFor cs,
          specMultiSelectUnaccepted step pillsOf s cs) := by
  intro cs
  induction cs with
  | nil => intro s; rfl
  | cons c rest ih =>
    intro s
    rw [typeLoop]
    by_cases hacc : foldCase c ∈ getCurrentPills (pillsOf (step s c)) <;>
      simp [hacc, ih, specEventsFor, specMultiSelectUnaccepted]

/-- Claim C2: in the type-select flow the candidate list is the target
labels in order followed by the aliases in order; with multi-select
enabled every candidate in that order is typed, committed and checked
against the freshly read chips even after earlier successes; each
candidate absent from the chips after its commit is recorded as
unaccepted; and after the loop the unaccepted candidates, if any, are
reported by a single collective warning while the flow still completes
successfully. -/
theorem C2_multiselect_flow {σ : Type} (step : σ → String → σ)
    (pillsOf : σ → List String) (labels : LabelSpec)
    (aliases : List String) (s0 : σ) :
    ∃ fin out,
      selectByTypingFromDropdown step pillsOf true labels true aliases s0 =
        .ok (fin, out) ∧
      out.events = specEventsFor (labelArray labels ++ aliases) ∧
      fin = (labelArray labels ++ aliases).foldl step s0 ∧
      out.unaccepted =
        specMultiSelectUnaccepted step pillsOf s0 (labelArray labels ++ aliases) ∧
      out.warnedUnaccepted = !out.unaccepted.isEmpty := by
  refine ⟨(labelArray labels ++ aliases).foldl step s0,
    { triggerClicked := true,
      events := specEventsFor (labelArray labels ++ aliases),
      unaccepted :=
        specMultiSelectUnaccepted step pillsOf s0 (labelArray labels ++ aliases),
      warnedTriggerMissing := false,
      warnedUnaccepted :=
        !(specMultiSelectUnaccepted step pillsOf s0
          (labelArray labels ++ aliases)).isEmpty },
    ?_, rfl, rfl, rfl, rfl⟩
  have h0 : selectByTypingFromDropdown step pillsOf true labels true aliases s0 =
      .ok ((typeLoop true step pillsOf s0 (labelArray labels ++ aliases)).1,
        { triggerClicked := true,
          events := (typeLoop true step pillsOf s0 (labelArray labels ++ aliases)).2.1,
          unaccepted := (typeLoop true step pillsOf s0 (labelArray labels ++ aliases)).2.2,
          warnedTriggerMissing := false,
          warnedUnaccepted :=
            !(typeLoop true step pillsOf s0 (labelArray labels ++ aliases)).2.2.isEmpty }) :=
    rfl
  rw [h0, typeLoop_multi]

/-- Claim C3: with multi-select disabled, whenever the candidate about to
be tried already appears (after the pills' trim-and-lower-case
normalisation, comparing the lower-cased candidate) among the chips read
fresh from the DOM, the loop stops immediately with no value set, no
input event and no Enter key events for that or any later candidate; at
the top level, when this holds for the very first candidate the whole
flow ends successfully with no events and nothing unaccepted. -/
theorem C3_single_select_short_circuit {σ : Type} (step : σ → String → σ)
    (pillsOf : σ → List String) :
    (∀ (s : σ) (c : String) (rest : List String),
      (getCurrentPills (pillsOf s)).contains (foldCase c) = true →
      typeLoop false step pillsOf s (c :: rest) = (s, [], [])) ∧
    (∀ (s0 : σ) (labels : LabelSpec) (aliases : List String)
        (c : String) (rest : List String),
      labelArray labels ++ aliases = c :: rest →
      (getCurrentPills (pillsOf s0)).contains (foldCase c) = true →
      selectByTypingFromDropdown step pillsOf true labels false aliases s0 =
        .ok (s0,
          { triggerClicked := true, events := [], unaccepted := [],
            warnedTriggerMissing := false, warnedUnaccepted := false })) := by
  have hloop : ∀ (s : σ) (c : String) (rest : List String),
      (getCurrentPills (pillsOf s)).contains (foldCase c) = true →
      typeLoop false step pillsOf s (c :: rest) = (s, [], []) := by
    intro s c rest h
    rw [typeLoop]
    have h' : foldCase c ∈ getCurrentPills (pillsOf s) := by simpa using h
    simp [h']
  refine ⟨hloop, ?_⟩
  intro s0 labels aliases c rest hc h
  rw [selectByTypingFromDropdown]
  simp only [Bool.not_true, Bool.false_eq_true, if_false, hc]
  rw [hloop s0 c rest h]
  rfl

/-- Witness for C3: a host already showing the pill "  JAVA " (which
normalises to "java") short-circuits on the candidate "Java" both at the
loop level and at the top level of the flow. -/
theorem C3_single_select_short_circuit_witness :
    typeLoop false (fun (s : List String) c => s ++ [c]) (fun s => s)
        ["  JAVA "] ["Java", "Python"] = (["  JAVA "], [], []) ∧
    selectByTypingFromDropdown (fun (s : List String) c => s ++ [c])
        (fun s => s) true (.single "Java") false ["Python"] ["  JAVA "] =
      .ok (["  JAVA "],
        { triggerClicked := true, events := [],
          unaccepted := [], warnedTriggerMissing := false,
          warnedUnaccepted := false }) :=
  ⟨(C3_single_select_short_circuit (fun (s : List String) c => s ++ [c])
      (fun s => s)).1 ["  JAVA "] "Java" ["Python"] (by decide),
   (C3_single_select_short_circuit (fun (s : List String) c => s ++ [c])
      (fun s => s)).2 ["  JAVA "] (.single "Java") ["Python"] "Java"
      ["Python"] rfl (by decide)⟩

/-- Claim C8: element-not-found and no-match failures are never escalated
to the caller: the click-select flow completes successfully for every
input — its internal waiter rejection is caught and demoted to a warning —
and the type-select flow completes successfully for every input; the only
operation whose promise the caller can observe in a rejected state is the
waiter itself, and any such rejection is a timeout: it happens strictly
after the deadline, at a tick where the selector was still unsatisfied. -/
theorem C8_error_escalation :
    (∀ (doc0 : List Element) (docAt : Nat → List Element)
        (childrenOf : Element → List Element)
        (buttonSel optionSel : Element → Bool) (label : String)
        (aliases : List String),
      (selectFromDropdownOption doc0 docAt childrenOf buttonSel optionSel
        label aliases).isOk = true) ∧
    (∀ (σ : Type) (step : σ → String → σ) (pillsOf : σ → List String)
        (triggerFound : Bool) (labels : LabelSpec) (allowMultiple : Bool)
        (aliases : List String) (s0 : σ),
      (selectByTypingFromDropdown step pillsOf triggerFound labels
        allowMultiple aliases s0).isOk = true) ∧
    (∀ (query : Nat → Option Element) (timeout T : Nat),
      waitForElement query timeout = .error T →
        timeout < T ∧ query T = none) := by
  refine ⟨?_, ?_, ?_⟩
  · intro doc0 docAt childrenOf buttonSel optionSel label aliases
    cases h1 : findWithIdx buttonSel doc0 with
    | none => simp [selectFromDropdownOption, h1, Except.isOk, Except.toBool]
    | some p =>
      cases h2 : waitForElement (fun t => (docAt t).find? optionSel) 5000 with
      | error e =>
        simp [selectFromDropdownOption, h1, h2, Except.isOk, Except.toBool]
      | ok r =>
        cases h3 : getActiveDropdownContainer (docAt r.1) with
        | none =>
          simp [selectFromDropdownOption, h1, h2, h3, Except.isOk,
            Except.toBool]
        | some active =>
          cases h4 : findMatchingOption ((childrenOf active).filter optionSel)
              label aliases with
          | none =>
            simp [selectFromDropdownOption, h1, h2, h3, h4, Except.isOk,
              Except.toBool]
          | some m =>
            simp [selectFromDropdownOption, h1, h2, h3, h4, Except.isOk,
              Except.toBool]
  · intro σ step pillsOf triggerFound labels allowMultiple aliases s0
    cases triggerFound <;>
      simp [selectByTypingFromDropdown, Except.isOk, Except.toBool]
  · intro query timeout T h
    exact pollFrom_error_facts query timeout 100 T h

/-- Witness for C8: a concrete empty document completes the click-select
flow successfully, and the concrete waiter rejection at 300 ms with a
250 ms deadline is certified as a genuine timeout. -/
theorem C8_error_escalation_witness :
    (selectFromDropdownOption [] (fun _ => []) (fun _ => [])
      (fun _ => false) (fun _ => false) "x" []).isOk = true ∧
    250 < 300 ∧ (fun _ => (none : Option Element)) 300 = none := by
  have h : waitForElement (fun _ => (none : Option Element)) 250 = .error 300 := by
    simp [waitForElement, pollFrom]
  exact ⟨C8_error_escalation.1 [] (fun _ => []) (fun _ => [])
      (fun _ => false) (fun _ => false) "x" [],
    C8_error_escalation.2.2 (fun _ => none) 250 300 h⟩

/-- Claim C10: the by-name entry points are pure wrappers: for every name,
value and document, `fillInputByName` behaves identically to
`fillInputBySelector` on the derived selector `input[name="<name>"]` —
whose semantics is the predicate matching tag `input` and that `name`
attribute — and `setCheckboxByName` behaves identically to
`setCheckboxBySelector` on the same derived selector. -/
theorem C10_name_wrappers (name value : String) (want : Bool)
    (doc : List Element) :
    fillInputByName name value doc =
      fillInputBySelector (fun e => e.tag == "input" && e.name == name) value doc ∧
    setCheckboxByName name want doc =
      setCheckboxBySelector (fun e => e.tag == "input" && e.name == name) want doc :=
  ⟨rfl, rfl⟩

/-- Witness for C1: on options Yes/No, the label " YES " is matched first
in document order; and on options Yes with label and alias that match
nothing, the negative result is characterised. -/
theorem C1_option_matcher_witness :
    (FirstSuch [mkOption "Yes", mkOption "No"] " YES " (mkOption "Yes") ∨
      ((∀ e ∈ [mkOption "Yes", mkOption "No"], ¬ optMatches " YES " e) ∧
        ∃ k a, ([] : List String).get? k = some a ∧
          FirstSuch [mkOption "Yes", mkOption "No"] a (mkOption "Yes") ∧
          ∀ a' ∈ ([] : List String).take k,
            ∀ e ∈ [mkOption "Yes", mkOption "No"], ¬ optMatches a' e)) ∧
    (∀ e ∈ [mkOption "Yes"], ¬ optMatches "maybe" e ∧
      ∀ a ∈ ["nah"], ¬ optMatches a e) :=
  ⟨(C1_option_matcher [mkOption "Yes", mkOption "No"] " YES " []).1
      (mkOption "Yes") (by decide),
   (C1_option_matcher [mkOption "Yes"] "maybe" ["nah"]).2.mp (by decide)⟩
